import Mathlib

/-!
Verification development for the MusictoPianoAppV1 repository.

The repository is a music-transcription web app: a React frontend
(`frontend/src/App.tsx`, `frontend/src/components/YouTubeInput.tsx`, the
stepper `App` in the unnamed source file) and a Flask backend whose audio
route module survives only as compiled bytecode
(`backend/app/api/__pycache__/audio_routes.cpython-310.pyc`).  The bytecode
file went through a lossy text re-encoding (every byte at or above 0x80 was
replaced by the UTF-8 replacement character), so its control flow is
recovered here from the intact ASCII constant pool: route paths, error
messages, the allowed-extension set, the order of validation checks before
job-directory creation, and the `status.txt` read in `get_status`.
Definitions below are shallow embeddings of those functions; parts of the
backend that are referenced but absent from the sources (the
`utils.validators` and `services.audio_service` modules, the transcription
and sheet-music routes) are modelled from the specification and say so in
their doc comments.
-/

namespace MusicApp

/-! ### Frontend file validation (`AudioUploader` in YouTubeInput.tsx) -/

/-- Metadata of a browser `File` object as seen by `handleFileChange`:
declared name, declared MIME type, and size in bytes. -/
structure FileMeta where
  name : String
  type : String
  size : Nat
deriving DecidableEq

/-- The `validTypes` array of `AudioUploader.handleFileChange`. -/
def validTypes : List String :=
  ["audio/mpeg", "audio/wav", "audio/ogg", "audio/flac", "audio/mp4"]

/-- The 50 MiB cap `50 * 1024 * 1024` of `AudioUploader.handleFileChange`. -/
def MAX_SIZE : Nat := 50 * 1024 * 1024

/-- Embedding of `AudioUploader.handleFileChange` for a nonempty file list:
returns the new `selectedFile` state (the source sets it to `null` on a
type or size violation, and to the file itself otherwise). -/
def handleFileChange (f : FileMeta) : Option FileMeta :=
  if validTypes.contains f.type = false then none
  else if MAX_SIZE < f.size then none
  else some f

/-! ### Backend audio routes (recovered from audio_routes.cpython-310.pyc) -/

/-- The allowed-extension frozenset in `upload_audio`'s constant pool:
`{m4a, mp3, ogg, wav, flac}`. -/
def ALLOWED_EXTENSIONS : List (List Char) :=
  [("mp3").data, ("wav").data, ("ogg").data, ("flac").data, ("m4a").data]

/-- The characters after the last dot of a filename, or `none` when the
name has no dot (Python's `'.' in name` guard with `rsplit`). -/
def afterLastDot : List Char → Option (List Char)
  | [] => none
  | c :: cs =>
    match afterLastDot cs with
    | some r => some r
    | none => if c = '.' then some cs else none

/-- Extension test applied by `upload_audio` to the uploaded filename:
the text after the last dot, lowercased, must belong to
`ALLOWED_EXTENSIONS`; a name without a dot is rejected. -/
def allowed_file (filename : String) : Bool :=
  match afterLastDot filename.data with
  | none => false
  | some ext => ALLOWED_EXTENSIONS.contains (ext.map Char.toLower)

/-- The job store as the routes see it: one entry per job directory under
`RESULTS_FOLDER`, keyed by job id, holding the content of the job's
`status.txt` when that file exists (`none` = directory exists, status file
not yet written). -/
abbrev JobStore := List (String × Option String)

/-- Job-directory creation: `os.makedirs(job_dir)` with a fresh uuid; no
status file is written by the route itself. -/
def create_job (store : JobStore) (jobId : String) : JobStore :=
  (jobId, none) :: store

/-- HTTP reply: status code plus the JSON object as a key-value list. -/
abbrev HttpReply := Nat × List (String × String)

/-- Status string shown for a job directory: the stripped content of
`status.txt` when the file exists, else the initial `processing`. -/
def statusOfContent : Option String → String
  | some s => s.trim
  | none => "processing"

/-- Embedding of `get_status` (route `GET /api/audio/status/<job_id>`): a
missing job directory yields 404 `Job not found`; otherwise 200 with the
job id and the status read from `status.txt`.  The module's constant pool
contains no `stage` string, so the reply carries no stage field. -/
def get_status (store : JobStore) (jobId : String) : HttpReply :=
  match store.lookup jobId with
  | none => (404, [("error", "Job not found")])
  | some content => (200, [("job_id", jobId), ("status", statusOfContent content)])

/-! ### YouTube URL validation (frontend regex, also used to model the
backend validator) -/

/-- Strip an exact literal prefix from a character list, returning the
remainder when the prefix matches. -/
def dropPref : List Char → List Char → Option (List Char)
  | [], cs => some cs
  | _ :: _, [] => none
  | p :: ps, c :: cs => if p = c then dropPref ps cs else none

/-- JavaScript line terminators, which `.` does not match in the regex. -/
def lineTerm (c : Char) : Bool :=
  c == '\n' || c == '\r' || c == Char.ofNat 8232 || c == Char.ofNat 8233

/-- The `.+$` tail of the regex: a nonempty remainder with no line
terminator. -/
def tailMatch (r : List Char) : Bool :=
  !r.isEmpty && r.all (fun c => !lineTerm c)

/-- Alternatives of the optional scheme group `(https?:\/\/)?`. -/
def schemes : List (List Char) := [[], ("http://").data, ("https://").data]

/-- Alternatives of the optional `(www\.)?` group. -/
def wwws : List (List Char) := [[], ("www.").data]

/-- Alternatives of the host group `(youtube\.com|youtu\.?be)`: note the
optional dot makes the second alternative match both `youtu.be` and the
dotless `youtube`. -/
def ytHosts : List (List Char) :=
  [("youtube.com").data, ("youtu.be").data, ("youtube").data]

/-- Anchored matcher for `^(scheme)?(www\.)?(host)\/.+$` over a given host
alternative list: a direct structural translation of the frontend regex
`/^(https?:\/\/)?(www\.)?(youtube\.com|youtu\.?be)\/.+$/`. -/
def ytCore (hs : List (List Char)) (cs : List Char) : Bool :=
  schemes.any fun sc =>
    match dropPref sc cs with
    | none => false
    | some r1 =>
      wwws.any fun w =>
        match dropPref w r1 with
        | none => false
        | some r2 =>
          hs.any fun h =>
            match dropPref h r2 with
            | none => false
            | some r3 =>
              match dropPref [Char.ofNat 47] r3 with
              | none => false
              | some rest => tailMatch rest

/-- The frontend regex `youtubeRegex.test url`. -/
def ytRegex (cs : List Char) : Bool := ytCore ytHosts cs

/-- Embedding of `YouTubeInput.handleSubmit`'s validation: the empty-string
guard `if (!url)` followed by the regex test; `true` means `onSubmit` is
invoked. -/
def handleYtSubmit (url : String) : Bool :=
  !url.data.isEmpty && ytRegex url.data

/-- Modelled from the spec: `utils.validators.validate_youtube_url` is
imported by the route module but its source is absent from the repository
snapshot; spec section 4.2 defines URL validation as the permissive
regex-based YouTube host/path shape, which is the same shape the in-repo
frontend regex implements, so the backend validator is modelled by that
matcher. -/
def validate_youtube_url (url : String) : Bool := ytRegex url.data

/-- Embedding of `process_youtube` (route `POST /api/audio/youtube`): a
missing `url` field and a URL failing validation are rejected before any
job id, directory or status record is created; otherwise a fresh job id
(the uuid, passed here as `newId`) gets a directory and the reply carries
`job_id`, `status` and `message`. -/
def process_youtube (newId : String) (store : JobStore) (urlField : Option String) :
    JobStore × HttpReply :=
  match urlField with
  | none => (store, (400, [("error", "Missing URL parameter")]))
  | some url =>
    if validate_youtube_url url = false then
      (store, (400, [("error", "Invalid YouTube URL")]))
    else
      (create_job store newId,
        (200, [("job_id", newId), ("status", "processing"),
               ("message", "YouTube audio extraction started")]))

/-- Embedding of `upload_audio` (route `POST /api/audio/upload`): missing
file part, empty filename and a disallowed extension are rejected in that
order before any job id, directory or status record is created. -/
def upload_audio (newId : String) (store : JobStore) (file : Option FileMeta) :
    JobStore × HttpReply :=
  match file with
  | none => (store, (400, [("error", "No file part in the request")]))
  | some f =>
    if f.name = "" then (store, (400, [("error", "No file selected")]))
    else if allowed_file f.name = false then
      (store, (400, [("error", "File type not allowed")]))
    else
      (create_job store newId,
        (200, [("job_id", newId), ("status", "processing"),
               ("message", "Audio file uploaded and processing started")]))

/-- A store holding exactly the job directories created (status file not
yet written) for a list of issued job ids. -/
def buildStore (ids : List String) : JobStore :=
  ids.foldr (fun i s => create_job s i) []

/-! ### Claim-side predicates for the validation claims (these two follow
the claim's words, for comparison with the embeddings above) -/

/-- Acceptance predicate written from claim C3's words: declared content
type (the MIME names the component uses for the five kinds) or extension
in the allowed set, size at most 50 MiB, and an empty or missing file
rejected. -/
def claimFileAccept : Option FileMeta → Bool
  | none => false
  | some f =>
    (validTypes.contains f.type || allowed_file f.name)
      && decide (f.size ≤ MAX_SIZE) && decide (0 < f.size)

/-- The host alternatives named by claim C4: `youtube.com` or `youtu.be`
only. -/
def claimHosts : List (List Char) := [("youtube.com").data, ("youtu.be").data]

/-- URL shape written from claim C4's words: `youtube.com/...` or
`youtu.be/...`, with or without scheme or `www.`. -/
def claimUrlAccept (url : String) : Bool :=
  !url.data.isEmpty && ytCore claimHosts url.data

/-- The combined file-validation gate of the repository: a file reaches a
job only by passing `AudioUploader.handleFileChange` in the frontend and
the checks of `upload_audio` in the backend (acceptance there means the
route answers 200 and creates the job). -/
def fileValidation : Option FileMeta → Bool
  | none => false
  | some f => (handleFileChange f).isSome && ((upload_audio ("j") [] (some f)).2.1 == 200)

/-- Corrected acceptance predicate (the amended claim C3): content type in
the component's MIME list, extension in the backend's set, size at most
50 MiB; no rejection of a zero-byte file. -/
def amendedFileAccept : Option FileMeta → Bool
  | none => false
  | some f =>
    validTypes.contains f.type && allowed_file f.name && decide (f.size ≤ MAX_SIZE)

/-- Declarative reading of the anchored regex over a host alternative
list: some scheme and `www.` alternative and some host from the list are
followed by a slash and a nonempty remainder free of line terminators. -/
def ytShape (hs : List (List Char)) (cs : List Char) : Prop :=
  ∃ sc w h rest, sc ∈ schemes ∧ w ∈ wwws ∧ h ∈ hs ∧
    cs = sc ++ w ++ h ++ Char.ofNat 47 :: rest ∧
    rest ≠ [] ∧ ∀ c ∈ rest, lineTerm c = false

/-! ### The `AudioUploader` component as a state machine (claim C9) -/

/-- Component state of the validated `AudioUploader`: the `selectedFile`
and `error` hooks. -/
structure UpState where
  selectedFile : Option FileMeta
  error : String
deriving DecidableEq

/-- Events the component reacts to: a file-input change carrying the
`e.target.files` list, and a form submit. -/
inductive UpEvent where
  | fileChange (files : List FileMeta)
  | submit
deriving DecidableEq

/-- Initial component state: `useState<File | null>(null)`, `useState('')`. -/
def upInit : UpState := { selectedFile := none, error := "" }

/-- One step of the component: the pair holds the next state and the list
of files passed to `onUpload` during the step.  `fileChange` follows
`handleFileChange` (empty file lists are ignored; an invalid file resets
`selectedFile` to `null` with an error; a valid one is stored); `submit`
follows `handleSubmit` (no selected file sets an error, otherwise
`onUpload(selectedFile)` fires). -/
def upStep (s : UpState) (e : UpEvent) : UpState × List FileMeta :=
  match e with
  | .fileChange files =>
    match files with
    | [] => (s, [])
    | f :: _ =>
      if validTypes.contains f.type = false then
        ({ selectedFile := none,
           error := "Please select a valid audio file (MP3, WAV, OGG, FLAC, M4A)" }, [])
      else if MAX_SIZE < f.size then
        ({ selectedFile := none, error := "File size exceeds 50MB limit" }, [])
      else
        ({ selectedFile := some f, error := "" }, [])
  | .submit =>
    match s.selectedFile with
    | none => ({ s with error := "Please select an audio file" }, [])
    | some f => (s, [f])

/-- Run the component over an event trace, collecting every file handed to
`onUpload`. -/
def upRun : UpState → List UpEvent → UpState × List FileMeta
  | s, [] => (s, [])
  | s, e :: es =>
    let p := upStep s e
    let q := upRun p.1 es
    (q.1, p.2 ++ q.2)

/-- A file satisfying the component's validation: declared type in the
MIME list and size at most 50 MiB. -/
def validFile (f : FileMeta) : Prop :=
  f.type ∈ validTypes ∧ f.size ≤ MAX_SIZE

/-- The invariant of claim C9: `selectedFile` is `null` or a valid file. -/
def upInv (s : UpState) : Prop :=
  ∀ f, s.selectedFile = some f → validFile f

/-! ### The stepper `App` of the unnamed source file (claim C10) -/

/-- Client state of the stepper `App`: `activeStep`, `loading`, `jobId`,
`error`, `pdfUrl` hooks. -/
structure AppState where
  activeStep : Nat
  loading : Bool
  jobId : Option String
  error : Option String
  pdfUrl : Option String
deriving DecidableEq

/-- Net outcome of one `fetch` in a handler: `ok` with the parsed payload,
or `fail` with the message of the thrown error (a non-ok response and a
thrown exception both land in the same `catch`). -/
inductive Outcome (α : Type) where
  | ok (data : α)
  | fail (message : String)

/-- Net effect of `App.handleFileUpload`: on success store the returned
`job_id` and advance the stepper; on failure set only the error message
(with the handler's fallback text when the thrown message is empty) —
`jobId`, `activeStep` and `pdfUrl` keep their values; `loading` ends
`false` either way. -/
def handleFileUpload (s : AppState) (r : Outcome String) : AppState :=
  match r with
  | .ok jid =>
    { s with loading := false, error := none, jobId := some jid,
             activeStep := s.activeStep + 1 }
  | .fail m =>
    { s with loading := false,
             error := some (if m = "" then "An error occurred during file upload" else m) }

/-- Net effect of `App.handleYouTubeSubmit`; same shape as
`handleFileUpload` with its own fallback message. -/
def handleYouTubeSubmit (s : AppState) (r : Outcome String) : AppState :=
  match r with
  | .ok jid =>
    { s with loading := false, error := none, jobId := some jid,
             activeStep := s.activeStep + 1 }
  | .fail m =>
    { s with loading := false,
             error := some (if m = "" then "An error occurred while processing YouTube URL" else m) }

/-- Net effect of `App.handleTranscribe`: success only advances the
stepper; failure sets only the error message. -/
def handleTranscribe (s : AppState) (r : Outcome Unit) : AppState :=
  match r with
  | .ok _ =>
    { s with loading := false, error := none, activeStep := s.activeStep + 1 }
  | .fail m =>
    { s with loading := false,
             error := some (if m = "" then "An error occurred during transcription" else m) }

/-- Net effect of `App.handleGenerateSheetMusic`: success sets `pdfUrl` to
the download link for the current job and advances; failure sets only the
error message. -/
def handleGenerateSheetMusic (backendUrl : String) (s : AppState) (r : Outcome Unit) :
    AppState :=
  match r with
  | .ok _ =>
    { s with loading := false, error := none, activeStep := s.activeStep + 1,
             pdfUrl := some (backendUrl ++ "/api/sheet-music/download/pdf/"
               ++ (match s.jobId with | some j => j | none => "null")) }
  | .fail m =>
    { s with loading := false,
             error := some (if m = "" then "An error occurred during sheet music generation" else m) }

/-! ### Pipeline state machine and atomic status writes (claims C1, C2,
C8; modelled from the spec) -/

/-- Modelled from the spec: the stage enumeration of section 4.3
(`Created → Ingesting → Ingested → Transcribing → Transcribed → Generating
→ Done`); the transcription and sheet-music route modules that would
realize it are absent from the repository snapshot. -/
inductive Stage where
  | created
  | ingesting
  | ingested
  | transcribing
  | transcribed
  | generating
  | done
deriving DecidableEq

/-- Job-level status of the status record. -/
inductive JStatus where
  | processing
  | completed
  | failed
deriving DecidableEq

/-- A status record as the spec's section 3 describes it: stage, status
and human-readable message. -/
structure StatusRec where
  stage : Stage
  status : JStatus
  message : String
deriving DecidableEq

/-- Modelled from the spec: the three explicitly triggered stage executors
of section 4.3 (the two ingest variants are one executor kind here, both
running from `created`). -/
inductive ExecKind where
  | ingest
  | transcribe
  | generateSheet
deriving DecidableEq

/-- Stage a job must be in for the executor to be allowed to run. -/
def expectedPred : ExecKind → Stage
  | .ingest => .created
  | .transcribe => .ingested
  | .generateSheet => .transcribed

/-- Stage recorded after the executor completes. -/
def resultStage : ExecKind → Stage
  | .ingest => .ingested
  | .transcribe => .transcribed
  | .generateSheet => .done

/-- Pipeline errors of the spec's section 7 taxonomy that the controller
returns. -/
inductive PErr where
  | invalidTransition
  | notFound
deriving DecidableEq

/-- A job as the controller sees it: current stage and the list of
artifacts written so far (one entry per completed executor). -/
structure Job where
  stage : Stage
  artifacts : List ExecKind
deriving DecidableEq

/-- Modelled from the spec: the Job Controller guard of sections 4.4 and 5
— an advance request runs the executor only when the job is in the
expected preceding stage, and otherwise fails with `InvalidTransition`
without touching the job (no artifact is written on the error path). -/
def advanceJob (j : Job) (e : ExecKind) : Except PErr Job :=
  if j.stage = expectedPred e then
    .ok { stage := resultStage e, artifacts := j.artifacts ++ [e] }
  else
    .error .invalidTransition

/-- Modelled from the spec: turning an executor failure into a Failed
status per sections 4.4 and 7 — status becomes `failed`, the message is
the executor's human-readable text (with a fallback so it is never empty),
and the stage keeps its last successful value. -/
def setFailed (r : StatusRec) (msg : String) : StatusRec :=
  { r with status := .failed,
           message := if msg = "" then "Stage execution failed" else msg }

/-- Result of running one stage executor. -/
inductive ExecResult where
  | success
  | failure (msg : String)

/-- Record store keyed by job id for the spec-level controller. -/
abbrev RecStore := List (String × StatusRec)

/-- Mark the named job failed, leaving every other job untouched. -/
def recordFailure (store : RecStore) (j : String) (msg : String) : RecStore :=
  store.map (fun p => if p.1 = j then (p.1, setFailed p.2 msg) else p)

/-- Modelled from the spec: the Job Controller boundary of section 7 — a
successful executor marks the job completed, and every executor failure is
caught and recorded as a Failed status write; the controller is a total
function, returning an HTTP code instead of crashing, and never deletes a
job record. -/
def controllerRun (store : RecStore) (j : String) (res : ExecResult) : RecStore × Nat :=
  match res with
  | .success =>
    (store.map (fun p => if p.1 = j then (p.1, { p.2 with status := .completed }) else p), 200)
  | .failure msg => (recordFailure store j msg, 500)

/-- Spec-level read of a job's status record. -/
def readRecord (store : RecStore) (j : String) : Except PErr StatusRec :=
  match store.lookup j with
  | none => .error .notFound
  | some r => .ok r

/-- Modelled from the spec: the write-to-temp-then-rename discipline of
section 4.1.  Shared state seen by a concurrent reader while one
`write_status` replaces `old` by `new`: the published record and the
temporary file.  Index `k` is how many of the writer's two atomic actions
(write the temp file, rename it over the published record) have happened. -/
structure WStore where
  published : StatusRec
  temp : Option StatusRec
deriving DecidableEq

/-- The interleaving points of one atomic status write. -/
def writeStatusStep (old new : StatusRec) : Nat → WStore
  | 0 => { published := old, temp := none }
  | 1 => { published := old, temp := some new }
  | _ + 2 => { published := new, temp := none }

/-- A concurrent `read_status` sees only the published record, never the
temp file. -/
def readPublished (w : WStore) : StatusRec := w.published

end MusicApp

namespace MusicApp

theorem dropPref_eq_some (p : List Char) :
    ∀ (cs r : List Char), dropPref p cs = some r ↔ cs = p ++ r := by
  induction p with
  | nil => intro cs r; simp [dropPref]
  | cons a ps ih =>
    intro cs r
    cases cs with
    | nil => simp [dropPref]
    | cons c cs2 =>
      simp only [dropPref, List.cons_append, List.cons.injEq]
      by_cases h : a = c
      · rw [if_pos h]
        rw [ih cs2 r]
        constructor
        · intro he; exact ⟨h.symm, he⟩
        · intro he; exact he.2
      · rw [if_neg h]
        constructor
        · intro he; exact Option.noConfusion he
        · intro he; exact absurd he.1.symm h

theorem dropPref_append (p r : List Char) : dropPref p (p ++ r) = some r :=
  (dropPref_eq_some p (p ++ r) r).mpr rfl

theorem tailMatch_iff (r : List Char) :
    tailMatch r = true ↔ r ≠ [] ∧ ∀ c ∈ r, lineTerm c = false := by
  cases r with
  | nil => simp [tailMatch]
  | cons c cs =>
    simp [tailMatch, List.all_eq_true]

theorem ytCore_iff (hs : List (List Char)) (cs : List Char) :
    ytCore hs cs = true ↔ ytShape hs cs := by
  constructor
  · intro h
    rcases List.any_eq_true.mp h with ⟨sc, hsc, h1⟩
    cases hdp : dropPref sc cs with
    | none => simp [hdp] at h1
    | some r1 =>
      simp only [hdp] at h1
      rcases List.any_eq_true.mp h1 with ⟨w, hw, h2⟩
      cases hdw : dropPref w r1 with
      | none => simp [hdw] at h2
      | some r2 =>
        simp only [hdw] at h2
        rcases List.any_eq_true.mp h2 with ⟨hh, hhm, h3⟩
        cases hdh : dropPref hh r2 with
        | none => simp [hdh] at h3
        | some r3 =>
          simp only [hdh] at h3
          cases hds : dropPref [Char.ofNat 47] r3 with
          | none => simp [hds] at h3
          | some rest =>
            simp only [hds] at h3
            obtain ⟨hne, hterm⟩ := (tailMatch_iff rest).mp h3
            refine ⟨sc, w, hh, rest, hsc, hw, hhm, ?_, hne, hterm⟩
            have e1 := (dropPref_eq_some sc cs r1).mp hdp
            have e2 := (dropPref_eq_some w r1 r2).mp hdw
            have e3 := (dropPref_eq_some hh r2 r3).mp hdh
            have e4 := (dropPref_eq_some [Char.ofNat 47] r3 rest).mp hds
            rw [e1, e2, e3, e4]
            simp
  · rintro ⟨sc, w, hh, rest, hsc, hw, hhm, hceq, hne, hterm⟩
    apply List.any_eq_true.mpr
    refine ⟨sc, hsc, ?_⟩
    have d1 : dropPref sc cs = some (w ++ (hh ++ (Char.ofNat 47 :: rest))) := by
      apply (dropPref_eq_some sc cs _).mpr
      rw [hceq]
      simp [List.append_assoc]
    simp only [d1]
    apply List.any_eq_true.mpr
    refine ⟨w, hw, ?_⟩
    simp only [dropPref_append w (hh ++ (Char.ofNat 47 :: rest))]
    apply List.any_eq_true.mpr
    refine ⟨hh, hhm, ?_⟩
    simp only [dropPref_append hh (Char.ofNat 47 :: rest)]
    have d4 : dropPref [Char.ofNat 47] (Char.ofNat 47 :: rest) = some rest :=
      dropPref_append [Char.ofNat 47] rest
    simp only [d4]
    exact (tailMatch_iff rest).mpr ⟨hne, hterm⟩

/-- Claim C4 (counterexample): the frontend validation accepts
`youtube/abc123`, which is not of the claimed `youtube.com/...` or
`youtu.be/...` host shape (the regex alternative `youtu\\.?be` with its
optional dot also matches the dotless host `youtube`), so the claimed
if-and-only-if characterization of URL validation is false. -/
theorem C4_url_validation_counterexample :
    handleYtSubmit ("youtube/abc123") = true
    ∧ claimUrlAccept ("youtube/abc123") = false
    ∧ ¬ ytShape claimHosts (String.data ("youtube/abc123")) := by
  refine ⟨by decide, by decide, ?_⟩
  intro hsh
  exact absurd ((ytCore_iff claimHosts (String.data ("youtube/abc123"))).mpr hsh) (by decide)

/-- Claim C4 (amended): the frontend URL validation accepts a string iff
it decomposes as an optional `http://` or `https://` scheme, an optional
`www.`, a host that is `youtube.com`, `youtu.be` or the dotless `youtube`
(admitted by the regex's optional dot), a slash, and a nonempty remainder
free of line terminators; in particular `https://youtu.be/abc123` and
`youtube.com/watch?v=abc123` are accepted while the empty string and
`https://vimeo.com/123` are rejected. -/
theorem C4_url_validation_amended :
    (∀ url : String, handleYtSubmit url = true ↔ ytShape ytHosts url.data)
    ∧ handleYtSubmit ("https://youtu.be/abc123") = true
    ∧ handleYtSubmit ("youtube.com/watch?v=abc123") = true
    ∧ handleYtSubmit ("") = false
    ∧ handleYtSubmit ("https://vimeo.com/123") = false := by
  refine ⟨?_, by decide, by decide, by decide, by decide⟩
  intro url
  unfold handleYtSubmit ytRegex
  rw [Bool.and_eq_true, ytCore_iff]
  constructor
  · exact fun h => h.2
  · intro h
    refine ⟨?_, h⟩
    rcases h with ⟨sc, w, hh, rest, hsc, hw, hhm, hceq, hne, hterm⟩
    rw [hceq]
    simp

/-- Witness for the amended claim C4 at a concrete accepted URL. -/
theorem C4_url_validation_amended_witness :
    handleYtSubmit ("https://youtu.be/abc123") = true :=
  C4_url_validation_amended.2.1

/-- Claim C3 (counterexample): the claimed acceptance predicate (content
type or extension in the set, size at most 50 MiB, empty file rejected)
disagrees with the code on two concrete files: a file named `song.mp3`
with declared type `text/plain` is accepted by the claim (extension in the
set) but rejected by the frontend type check, and a zero-byte `song.mp3`
of type `audio/mpeg` is rejected by the claim but accepted by the code,
which checks no lower size bound. -/
theorem C3_file_validation_counterexample :
    claimFileAccept (some ⟨"song.mp3", "text/plain", 4⟩) = true
    ∧ fileValidation (some ⟨"song.mp3", "text/plain", 4⟩) = false
    ∧ claimFileAccept (some ⟨"song.mp3", "audio/mpeg", 0⟩) = false
    ∧ fileValidation (some ⟨"song.mp3", "audio/mpeg", 0⟩) = true := by
  refine ⟨by decide, by decide, by decide, by decide⟩

/-- Claim C3 (amended): the repository's two-layer file validation accepts
a file iff its declared content type is in the component's MIME list, its
filename extension (after the last dot, lowercased) is in the backend's
set, and its size is at most 50 MiB; exactly 50 MiB is accepted, 50 MiB
plus one byte is rejected, a `.txt` name is rejected, a missing file is
rejected, and a zero-byte file with valid type and extension is accepted. -/
theorem C3_file_validation_amended :
    (∀ f : Option FileMeta, fileValidation f = true ↔ amendedFileAccept f = true)
    ∧ fileValidation (some ⟨"t.mp3", "audio/mpeg", 52428800⟩) = true
    ∧ fileValidation (some ⟨"t.mp3", "audio/mpeg", 52428801⟩) = false
    ∧ fileValidation (some ⟨"notes.txt", "text/plain", 10⟩) = false
    ∧ fileValidation none = false
    ∧ fileValidation (some ⟨"t.mp3", "audio/mpeg", 0⟩) = true := by
  refine ⟨?_, by decide, by decide, by decide, by decide, by decide⟩
  intro f
  cases f with
  | none => simp [fileValidation, amendedFileAccept]
  | some f =>
    simp only [fileValidation, amendedFileAccept, handleFileChange, upload_audio]
    by_cases hm : f.type ∈ validTypes
    · by_cases hs : MAX_SIZE < f.size
      · have hsle : ¬ (f.size ≤ MAX_SIZE) := by omega
        simp [hm, hs, hsle]
      · have hsle : f.size ≤ MAX_SIZE := by omega
        by_cases hn : f.name = ""
        · have ha0 : allowed_file ("") = false := by decide
          simp [hm, hs, hsle, hn, ha0]
        · by_cases ha : allowed_file f.name = false
          · simp [hm, hs, hsle, hn, ha]
          · have ha2 : allowed_file f.name = true := by
              cases hc : allowed_file f.name
              · exact absurd hc ha
              · rfl
            simp [hm, hs, hsle, hn, ha2]
    · simp [hm]

/-- Witness for the amended claim C3 at the exact 50 MiB boundary. -/
theorem C3_file_validation_amended_witness :
    fileValidation (some ⟨"t.mp3", "audio/mpeg", 52428800⟩) = true :=
  C3_file_validation_amended.2.1

/-- Claim C5: every invalid ingestion input is rejected with a validation
error and no job comes into existence — the youtube route rejects a
missing or invalid URL leaving the store unchanged, the upload route
rejects a missing file part, an empty filename and a disallowed extension
leaving the store unchanged, and an oversize file never leaves the
frontend uploader (`selectedFile` resets to `null` and `onUpload` never
fires), so no request reaches the backend for it. -/
theorem C5_invalid_input_creates_no_job :
    (∀ (id : String) (store : JobStore),
      process_youtube id store none = (store, (400, [("error", "Missing URL parameter")])))
    ∧ (∀ (id : String) (store : JobStore) (url : String), validate_youtube_url url = false →
      process_youtube id store (some url) = (store, (400, [("error", "Invalid YouTube URL")])))
    ∧ (∀ (id : String) (store : JobStore),
      upload_audio id store none = (store, (400, [("error", "No file part in the request")])))
    ∧ (∀ (id : String) (store : JobStore) (f : FileMeta), f.name = "" →
      upload_audio id store (some f) = (store, (400, [("error", "No file selected")])))
    ∧ (∀ (id : String) (store : JobStore) (f : FileMeta), f.name ≠ "" →
      allowed_file f.name = false →
      upload_audio id store (some f) = (store, (400, [("error", "File type not allowed")])))
    ∧ (∀ (s : UpState) (f : FileMeta) (fs : List FileMeta), MAX_SIZE < f.size →
      (upStep s (UpEvent.fileChange (f :: fs))).1.selectedFile = none
      ∧ (upStep s (UpEvent.fileChange (f :: fs))).2 = [])
    ∧ (∀ s : UpState, s.selectedFile = none → (upStep s UpEvent.submit).2 = []) := by
  refine ⟨?_, ?_, ?_, ?_, ?_, ?_, ?_⟩
  · intro id store; rfl
  · intro id store url h; simp [process_youtube, h]
  · intro id store; rfl
  · intro id store f h; simp [upload_audio, h]
  · intro id store f hn ha; simp [upload_audio, hn, ha]
  · intro s f fs hs
    by_cases hm : f.type ∈ validTypes
    · exact ⟨by simp [upStep, hm, hs], by simp [upStep, hm, hs]⟩
    · exact ⟨by simp [upStep, hm], by simp [upStep, hm]⟩
  · intro s h; simp [upStep, h]

/-- Witness for claim C5: a vimeo URL is rejected with no job created. -/
theorem C5_invalid_input_creates_no_job_witness :
    process_youtube ("id1") [] (some ("https://vimeo.com/123"))
      = ([], (400, [("error", "Invalid YouTube URL")])) :=
  C5_invalid_input_creates_no_job.2.1 ("id1") [] ("https://vimeo.com/123") (by decide)

theorem buildStore_lookup_of_not_mem :
    ∀ (ids : List String) (j : String), j ∉ ids → (buildStore ids).lookup j = none := by
  intro ids
  induction ids with
  | nil => intro j h; rfl
  | cons i t ih =>
    intro j h
    have hji : j ≠ i := fun e => h (e ▸ List.mem_cons_self i t)
    have hjt : j ∉ t := fun m => h (List.mem_cons_of_mem i m)
    have hb : (j == i) = false := beq_eq_false_iff_ne.mpr hji
    show List.lookup j ((i, none) :: buildStore t) = none
    simp [List.lookup, hb, ih j hjt]

theorem buildStore_lookup_of_mem :
    ∀ (ids : List String) (j : String), j ∈ ids → (buildStore ids).lookup j = some none := by
  intro ids
  induction ids with
  | nil => intro j h; cases h
  | cons i t ih =>
    intro j h
    by_cases hji : j = i
    · have hb : (j == i) = true := beq_iff_eq.mpr hji
      show List.lookup j ((i, none) :: buildStore t) = some none
      simp [List.lookup, hb]
    · have hb : (j == i) = false := beq_eq_false_iff_ne.mpr hji
      have hjt : j ∈ t := by
        cases List.mem_cons.mp h with
        | inl he => exact absurd he hji
        | inr hm => exact hm
      show List.lookup j ((i, none) :: buildStore t) = some none
      simp [List.lookup, hb, ih j hjt]

/-- Claim C6 (counterexample): for an issued job id the status route
answers 200 with a record holding exactly the keys `job_id` and `status`;
the claimed `{job_id, stage, status, message}` shape is false, as the
route module has no `stage` key at all (no such string exists in its
constant pool) and no `message` key in the status reply. -/
theorem C6_get_status_counterexample :
    get_status (buildStore [("j1")]) ("j1")
      = (200, [("job_id", "j1"), ("status", "processing")])
    ∧ (get_status (buildStore [("j1")]) ("j1")).2.lookup ("stage") = none
    ∧ (get_status (buildStore [("j1")]) ("j1")).2.lookup ("message") = none := by
  refine ⟨by decide, by decide, by decide⟩

/-- Claim C6 (amended): for every job id never issued by job creation the
status route answers 404 `Job not found` rather than a record or a crash;
for every issued job id it answers 200 with a record whose keys are
`job_id` and `status` (the status read from the job's status file,
`processing` right after creation); there is no separate stage or message
field. -/
theorem C6_get_status_amended :
    (∀ (ids : List String) (j : String), j ∉ ids →
      get_status (buildStore ids) j = (404, [("error", "Job not found")]))
    ∧ (∀ (ids : List String) (j : String), j ∈ ids →
      (get_status (buildStore ids) j).1 = 200
      ∧ (get_status (buildStore ids) j).2.map Prod.fst = [("job_id"), ("status")]) := by
  constructor
  · intro ids j h
    simp [get_status, buildStore_lookup_of_not_mem ids j h]
  · intro ids j h
    simp [get_status, buildStore_lookup_of_mem ids j h, statusOfContent]

/-- Witness for the amended claim C6: an unknown id yields 404 and an
issued one a 200 record with the two keys. -/
theorem C6_get_status_amended_witness :
    get_status (buildStore [("j1")]) ("nope") = (404, [("error", "Job not found")])
    ∧ (get_status (buildStore [("j1")]) ("j1")).2.map Prod.fst = [("job_id"), ("status")] :=
  ⟨C6_get_status_amended.1 [("j1")] ("nope") (by decide),
   (C6_get_status_amended.2 [("j1")] ("j1") (by decide)).2⟩

/-- Claim C7: reading the status of a job immediately after creation (job
directory made, no status file yet, no executor run) yields the initial
status string `processing` — the code's equivalent of the initial
Ingesting stage — which is not a failed status. -/
theorem C7_initial_status :
    (∀ (store : JobStore) (j : String),
      get_status (create_job store j) j = (200, [("job_id", j), ("status", "processing")]))
    ∧ (("processing" == "failed") = false) := by
  refine ⟨?_, by decide⟩
  intro store j
  simp [get_status, create_job, List.lookup, statusOfContent]

/-- Witness for claim C7 at a concrete fresh job. -/
theorem C7_initial_status_witness :
    get_status (create_job [] ("a1")) ("a1") = (200, [("job_id", "a1"), ("status", "processing")]) :=
  C7_initial_status.1 [] ("a1")

/-- Claim C1: under the write-to-temp-then-rename discipline, a read that
lands at any interleaving point of a concurrent status write returns
either the complete previous record or the complete new record; in
particular, replacing an Ingested/processing record by a Done/completed
one can never expose a torn Done/processing combination. -/
theorem C1_atomic_status_read :
    (∀ (old new : StatusRec) (k : Nat),
      readPublished (writeStatusStep old new k) = old
      ∨ readPublished (writeStatusStep old new k) = new)
    ∧ (∀ k : Nat,
      (readPublished (writeStatusStep
          ⟨Stage.ingested, JStatus.processing, ""⟩
          ⟨Stage.done, JStatus.completed, ("done")⟩ k)).stage = Stage.done →
      (readPublished (writeStatusStep
          ⟨Stage.ingested, JStatus.processing, ""⟩
          ⟨Stage.done, JStatus.completed, ("done")⟩ k)).status ≠ JStatus.processing) := by
  constructor
  · intro old new k
    match k with
    | 0 => exact Or.inl rfl
    | 1 => exact Or.inl rfl
    | n + 2 => exact Or.inr rfl
  · intro k
    match k with
    | 0 => intro h; exact absurd h (by decide)
    | 1 => intro h; exact absurd h (by decide)
    | n + 2 => intro h hs; simp [writeStatusStep, readPublished] at hs

/-- Witness for claim C1: after the rename step the reader sees the new
record, whose status is not processing. -/
theorem C1_atomic_status_read_witness :
    (readPublished (writeStatusStep
        ⟨Stage.ingested, JStatus.processing, ""⟩
        ⟨Stage.done, JStatus.completed, ("done")⟩ 2)).status ≠ JStatus.processing :=
  C1_atomic_status_read.2 2 (by decide)

/-- Claim C2: an advance request for a job that is not in the stage
expected by the executor fails with `InvalidTransition` (the error path
returns no job, so no artifact is written), and re-invoking an executor
whose stage the job has already passed — in particular right after its
own success — fails with `InvalidTransition` rather than writing a second
artifact or re-running the stage. -/
theorem C2_invalid_transition :
    (∀ (j : Job) (e : ExecKind), j.stage ≠ expectedPred e →
      advanceJob j e = Except.error PErr.invalidTransition)
    ∧ (∀ (j : Job) (e : ExecKind) (j2 : Job), advanceJob j e = Except.ok j2 →
      advanceJob j2 e = Except.error PErr.invalidTransition) := by
  constructor
  · intro j e h
    simp [advanceJob, h]
  · intro j e j2 h
    unfold advanceJob at h
    by_cases hg : j.stage = expectedPred e
    · rw [if_pos hg] at h
      have hj2 : j2 = { stage := resultStage e, artifacts := j.artifacts ++ [e] } := by
        cases h; rfl
      have hne : resultStage e ≠ expectedPred e := by
        cases e <;> decide
      rw [hj2]
      simp [advanceJob, hne]
    · rw [if_neg hg] at h
      exact absurd h (by simp)

/-- Witness for claim C2: transcribing a job already at Done is rejected. -/
theorem C2_invalid_transition_witness :
    advanceJob ⟨Stage.done, []⟩ ExecKind.transcribe = Except.error PErr.invalidTransition :=
  C2_invalid_transition.1 ⟨Stage.done, []⟩ ExecKind.transcribe (by decide)

theorem recordFailure_lookup :
    ∀ (store : RecStore) (j : String) (msg : String) (r : StatusRec),
      store.lookup j = some r →
      (recordFailure store j msg).lookup j = some (setFailed r msg) := by
  intro store j msg
  induction store with
  | nil => intro r h; cases h
  | cons p t ih =>
    obtain ⟨k, v⟩ := p
    intro r h
    have hcons : recordFailure ((k, v) :: t) j msg
        = (if k = j then (k, setFailed v msg) else (k, v)) :: recordFailure t j msg := rfl
    rw [hcons]
    by_cases hjk : k = j
    · have hb : (j == k) = true := beq_iff_eq.mpr hjk.symm
      have hv : v = r := by
        simp [List.lookup, hb] at h
        exact h
      rw [if_pos hjk]
      simp [List.lookup, hb, hv]
    · have hb : (j == k) = false := beq_eq_false_iff_ne.mpr (fun e => hjk e.symm)
      have ht2 : List.lookup j t = some r := by
        simp [List.lookup, hb] at h
        exact h
      rw [if_neg hjk]
      simp [List.lookup, hb]
      exact ih r ht2

/-- Claim C8: an executor failure is recorded by the controller as a
Failed status carrying a non-empty human-readable message, with the stage
field keeping its last successful value; the job record stays in the store
and remains readable, and the controller returns an HTTP code (a total
function — the failure never escapes as a crash). -/
theorem C8_executor_failure_recorded :
    ∀ (store : RecStore) (j : String) (msg : String) (r : StatusRec),
      store.lookup j = some r →
      (controllerRun store j (ExecResult.failure msg)).1.lookup j = some (setFailed r msg)
      ∧ readRecord (controllerRun store j (ExecResult.failure msg)).1 j
          = Except.ok (setFailed r msg)
      ∧ (setFailed r msg).status = JStatus.failed
      ∧ (setFailed r msg).message ≠ ""
      ∧ (setFailed r msg).stage = r.stage
      ∧ (controllerRun store j (ExecResult.failure msg)).2 = 500 := by
  intro store j msg r h
  have hl := recordFailure_lookup store j msg r h
  refine ⟨hl, ?_, rfl, ?_, rfl, rfl⟩
  · simp only [controllerRun] at hl ⊢
    simp [readRecord, hl]
  · by_cases hm : msg = ""
    · simp [setFailed, hm]
    · simp [setFailed, hm]

/-- Witness for claim C8 at a concrete one-job store and failure text. -/
theorem C8_executor_failure_recorded_witness :
    (controllerRun [(("j1"), ⟨Stage.ingested, JStatus.processing, ""⟩)] ("j1")
        (ExecResult.failure ("network down"))).1.lookup ("j1")
      = some (setFailed ⟨Stage.ingested, JStatus.processing, ""⟩ ("network down")) :=
  (C8_executor_failure_recorded [(("j1"), ⟨Stage.ingested, JStatus.processing, ""⟩)]
    ("j1") ("network down") ⟨Stage.ingested, JStatus.processing, ""⟩ (by decide)).1

theorem upStep_sound :
    ∀ (s : UpState) (e : UpEvent), upInv s →
      upInv (upStep s e).1 ∧ ∀ f ∈ (upStep s e).2, validFile f := by
  intro s e hinv
  cases e with
  | fileChange files =>
    cases files with
    | nil => exact ⟨hinv, by simp [upStep]⟩
    | cons f fs =>
      by_cases hm : f.type ∈ validTypes
      · by_cases hs2 : MAX_SIZE < f.size
        · constructor
          · intro g hg
            simp [upStep, hm, hs2] at hg
          · simp [upStep, hm, hs2]
        · constructor
          · intro g hg
            have heq : (upStep s (UpEvent.fileChange (f :: fs))).1
                = { selectedFile := some f, error := "" } := by
              simp [upStep, hm, hs2]
            rw [heq] at hg
            have hfg : some f = some g := hg
            cases hfg
            exact ⟨hm, Nat.le_of_not_lt hs2⟩
          · simp [upStep, hm, hs2]
      · constructor
        · intro g hg
          simp [upStep, hm] at hg
        · simp [upStep, hm]
  | submit =>
    cases hsel : s.selectedFile with
    | none =>
      constructor
      · intro g hg
        have heq : (upStep s UpEvent.submit).1
            = { s with error := "Please select an audio file" } := by
          simp [upStep, hsel]
        rw [heq] at hg
        have hg2 : s.selectedFile = some g := hg
        rw [hsel] at hg2
        cases hg2
      · simp [upStep, hsel]
    | some f =>
      constructor
      · intro g hg
        have heq : (upStep s UpEvent.submit).1 = s := by
          simp [upStep, hsel]
        rw [heq] at hg
        exact hinv g hg
      · intro g hg
        have heq : (upStep s UpEvent.submit).2 = [f] := by
          simp [upStep, hsel]
        rw [heq] at hg
        have hgf : g = f := List.mem_singleton.mp hg
        rw [hgf]
        exact hinv f hsel

theorem upRun_sound :
    ∀ (evs : List UpEvent) (s : UpState), upInv s →
      upInv (upRun s evs).1 ∧ ∀ f ∈ (upRun s evs).2, validFile f := by
  intro evs
  induction evs with
  | nil => intro s h; exact ⟨h, by simp [upRun]⟩
  | cons e es ih =>
    intro s h
    obtain ⟨h1, h2⟩ := upStep_sound s e h
    obtain ⟨h3, h4⟩ := ih (upStep s e).1 h1
    constructor
    · simp only [upRun]
      exact h3
    · intro f hf
      simp only [upRun] at hf
      rcases List.mem_append.mp hf with hl | hr
      · exact h2 f hl
      · exact h4 f hr

/-- Claim C9: along any event trace from the initial state, the uploader's
`selectedFile` is `null` or a file with a valid declared type and a size of
at most 50 MiB, and `onUpload` only ever receives such files; moreover a
file-change event carrying an invalid file resets `selectedFile` to
`null`. -/
theorem C9_uploader_invariant :
    (∀ evs : List UpEvent,
      upInv (upRun upInit evs).1 ∧ ∀ f ∈ (upRun upInit evs).2, validFile f)
    ∧ (∀ (s : UpState) (f : FileMeta) (fs : List FileMeta),
      ¬ validFile f →
      (upStep s (UpEvent.fileChange (f :: fs))).1.selectedFile = none) := by
  constructor
  · intro evs
    refine upRun_sound evs upInit ?_
    intro g hg
    simp [upInit] at hg
  · intro s f fs hnv
    by_cases hm : f.type ∈ validTypes
    · have hs2 : MAX_SIZE < f.size := by
        by_contra hc
        exact hnv ⟨hm, Nat.le_of_not_lt hc⟩
      simp [upStep, hm, hs2]
    · simp [upStep, hm]

/-- Witness for claim C9: an invalid file-change at the initial state
leaves no selected file. -/
theorem C9_uploader_invariant_witness :
    (upStep upInit (UpEvent.fileChange [⟨"a.txt", "text/plain", 5⟩])).1.selectedFile = none :=
  C9_uploader_invariant.2 upInit ⟨"a.txt", "text/plain", 5⟩ []
    (fun h => absurd h.1 (by decide))

/-- Claim C10: in the stepper `App`, every failed ingestion, transcription
or generation request (non-ok response or thrown error) leaves `jobId`,
`activeStep` and `pdfUrl` at their prior values and sets only the error
message, for all four handlers. -/
theorem C10_failed_request_preserves_state :
    ∀ (s : AppState) (m u : String),
      ((handleFileUpload s (Outcome.fail m)).jobId = s.jobId
        ∧ (handleFileUpload s (Outcome.fail m)).activeStep = s.activeStep
        ∧ (handleFileUpload s (Outcome.fail m)).pdfUrl = s.pdfUrl
        ∧ (handleFileUpload s (Outcome.fail m)).error.isSome = true)
      ∧ ((handleYouTubeSubmit s (Outcome.fail m)).jobId = s.jobId
        ∧ (handleYouTubeSubmit s (Outcome.fail m)).activeStep = s.activeStep
        ∧ (handleYouTubeSubmit s (Outcome.fail m)).pdfUrl = s.pdfUrl
        ∧ (handleYouTubeSubmit s (Outcome.fail m)).error.isSome = true)
      ∧ ((handleTranscribe s (Outcome.fail m)).jobId = s.jobId
        ∧ (handleTranscribe s (Outcome.fail m)).activeStep = s.activeStep
        ∧ (handleTranscribe s (Outcome.fail m)).pdfUrl = s.pdfUrl
        ∧ (handleTranscribe s (Outcome.fail m)).error.isSome = true)
      ∧ ((handleGenerateSheetMusic u s (Outcome.fail m)).jobId = s.jobId
        ∧ (handleGenerateSheetMusic u s (Outcome.fail m)).activeStep = s.activeStep
        ∧ (handleGenerateSheetMusic u s (Outcome.fail m)).pdfUrl = s.pdfUrl
        ∧ (handleGenerateSheetMusic u s (Outcome.fail m)).error.isSome = true) := by
  intro s m u
  exact ⟨⟨rfl, rfl, rfl, rfl⟩, ⟨rfl, rfl, rfl, rfl⟩, ⟨rfl, rfl, rfl, rfl⟩,
    ⟨rfl, rfl, rfl, rfl⟩⟩

/-- Witness for claim C10 at a concrete state and failure message. -/
theorem C10_failed_request_preserves_state_witness :
    (handleFileUpload ⟨1, true, some ("job-7"), none, none⟩ (Outcome.fail ("boom"))).jobId
      = some ("job-7") :=
  (C10_failed_request_preserves_state ⟨1, true, some ("job-7"), none, none⟩ ("boom") ("u")).1.1

end MusicApp
